import Mathlib

/-!
Shallow embedding of `src/musiclibcleaner.py` — the scan / cache / validate
pipeline: metadata extraction (`scan_media_info`), tag validation
(`determine_erroneous_track_num` / `determine_erroneous_disc_num` /
`determine_erroneous_date`, driven by `scan_erroneous_tags`), cover-art
checking (`scan_album_covers`), the file-list cache of `scan_library`, and
report building (`dict_list_to_html` plus the module-level selection at
lines 256-263).

Modelling conventions:
* Python tag-dict values are either `None` or a `str`; this is `PyVal`.
* Python dicts that the program builds key by key are insertion-ordered
  association lists `List (String × _)`; writing to an existing key keeps
  its position, a fresh key is appended (CPython dict semantics).
* The opaque capabilities (pytaglib's `taglib.File`, eyed3's `ArtFile`)
  are parameters: a function from a path to `Except Unit _`, where
  `Except.error` stands for the capability raising an exception.
* The on-disk caches are modelled as the byte/string contents written and
  read back; filesystem identity (read returns what was written) is the
  only assumption, stated by composing the write and load functions.
-/

/-- A value stored in a normalized `media_info_item['tags']` dict:
Python `None` or a Python `str`. -/
inductive PyVal where
  | vnone : PyVal
  | vstr : String → PyVal
deriving DecidableEq, Repr

/-- The `tags` dict of a media-info record: insertion-ordered mapping from
tag-field name to `PyVal`.  For records created on extraction failure this
dict is empty (`{}` in the source, lines 128-133 and 155-161); for records
created on success it holds exactly the seven recognized keys (lines
136-144), each possibly mapped to `None`. -/
abbrev TagDict := List (String × PyVal)

/-- Dict key membership / lookup, as Python `k in d` / `d[k]`. -/
def dictGet (d : TagDict) (k : String) : Option PyVal :=
  List.lookup k d

def keyARTIST : String := "ARTIST"
def keyALBUMARTIST : String := "ALBUMARTIST"
def keyALBUM : String := "ALBUM"
def keyTITLE : String := "TITLE"
def keyTRACKNUMBER : String := "TRACKNUMBER"
def keyDISCNUMBER : String := "DISCNUMBER"
def keyDATE : String := "DATE"

/-- One per-file record of the `media_info` map (source lines 128-148):
`tags`, `errored`, `erroneous_tags`, `has_cover`. -/
structure MediaInfoItem where
  tags : TagDict
  errored : Bool
  erroneous_tags : List String
  has_cover : Bool
deriving DecidableEq, Repr

/-- The character class `[[1-9]` occurring (twice) in the track-number
pattern at lines 79 and 89: matches a literal `[` or a digit `1`-`9`. -/
def inBracketOneNine (c : Char) : Bool :=
  c = '[' || ('1' ≤ c && c ≤ '9')

/-- Denotation of `re.match(p, s)` truthiness for the malformed pattern
`p = '^[[1-9][0-9]{0,2}|100]|/[[[1-9][0-9]{0,2}|100]]$'` of source lines
79 and 89.  Under Python `re` this pattern is a four-way top-level
alternation (the square brackets form character classes, not groups, and
`|` binds loosest):
  1. `^[\x5b1-9][0-9]{0,2}`  — first char in `[[1-9]`, then 0-2 digits,
     no end anchor, so it succeeds exactly when the first char is `[` or
     `1`-`9`;
  2. `100\x5d`               — literal `100]` prefix, subsumed by 1;
  3. `/[\x5b1-9][0-9]{0,2}`  — `/` then a char in `[[1-9]`, no end
     anchor;
  4. `100\x5d\x5d$`          — literal `100]]` at end, subsumed by 1.
`re.match` anchors every branch at position 0, so the match is truthy iff
the first character is `[` or `1`-`9`, or the first is `/` and the second
is `[` or `1`-`9`.  (Checked against CPython `re` on a test battery.) -/
def trackNumPatternMatch (s : String) : Bool :=
  match s.data with
  | [] => false
  | c :: rest =>
      inBracketOneNine c ||
        (c = '/' && (match rest with
          | [] => false
          | d :: _ => inBracketOneNine d))

def isAsciiDigit (c : Char) : Bool :=
  '0' ≤ c && c ≤ '9'

/-- Denotation of `re.match('^[0-9][0-9][0-9][0-9]$', s)` truthiness
(source line 99): exactly four ASCII digits, with Python's `$` also
accepting a single trailing newline. -/
def datePatternMatch (s : String) : Bool :=
  match s.data with
  | [a, b, c, d] => isAsciiDigit a && isAsciiDigit b && isAsciiDigit c && isAsciiDigit d
  | [a, b, c, d, e] =>
      isAsciiDigit a && isAsciiDigit b && isAsciiDigit c && isAsciiDigit d && e = '\n'
  | _ => false

/-- `determine_erroneous_track_num` (lines 76-83).  `clean` is
`'TRACKNUMBER' in tags and isinstance(tags['TRACKNUMBER'], str) and
re.match(pattern, tags['TRACKNUMBER'])`; the function returns `not clean`.
The `media_file_name` parameter is used only for log output and is
omitted. -/
def determine_erroneous_track_num (item : MediaInfoItem) : Bool :=
  let clean :=
    match dictGet item.tags keyTRACKNUMBER with
    | some (PyVal.vstr s) => trackNumPatternMatch s
    | _ => false
  !clean

/-- `determine_erroneous_disc_num` (lines 86-93).  `clean` is
`'DISCNUMBER' not in tags or (isinstance(tags['DISCNUMBER'], str) and
(re.match(pattern, tags['DISCNUMBER']) or tags['DISCNUMBER'] == ''))`;
the function returns `not clean`.  Note a key present with value `None`
(the normalized form of an absent source tag, line 142) falls through to
`isinstance(None, str) = False` and is therefore NOT clean. -/
def determine_erroneous_disc_num (item : MediaInfoItem) : Bool :=
  let clean :=
    match dictGet item.tags keyDISCNUMBER with
    | none => true
    | some PyVal.vnone => false
    | some (PyVal.vstr s) => trackNumPatternMatch s || s = ""
  !clean

/-- `determine_erroneous_date` (lines 96-103).  `clean` is
`'DATE' in tags and isinstance(tags['DATE'], str) and
re.match('^[0-9][0-9][0-9][0-9]$', tags['DATE'])`; returns `not clean`. -/
def determine_erroneous_date (item : MediaInfoItem) : Bool :=
  let clean :=
    match dictGet item.tags keyDATE with
    | some (PyVal.vstr s) => datePatternMatch s
    | _ => false
  !clean

/-- Raw tags as returned by the tag-reading capability (`taglib.File(...)
.tags`): a dict mapping a tag name to a list of string values. -/
abbrev RawTags := List (String × List String)

/-- The tag-reading capability, opaque per the spec: for a path it either
raises (`Except.error`), or yields a falsy file object (`Except.ok none`,
the `if not file_info` branch, line 126), or yields raw tags. -/
abbrev TagReader := String → Except Unit (Option RawTags)

/-- `','.join(values)` (lines 137-138). -/
def pyCommaJoin (values : List String) : String :=
  String.intercalate ("," : String) values

/-- `tags[k][0] if k in tags else None` (lines 139-143): absent key gives
`None`; a present key with an empty value list raises `IndexError`
(caught by the bare `except` of line 153). -/
def firstValueField (raw : RawTags) (k : String) : Except Unit PyVal :=
  match List.lookup k raw with
  | none => Except.ok PyVal.vnone
  | some [] => Except.error ()
  | some (v :: _) => Except.ok (PyVal.vstr v)

/-- `','.join(tags[k]) if k in tags else None` (lines 137-138): absent key
gives `None`; a present key joins all values with a comma (an empty value
list joins to the empty string). -/
def joinedValueField (raw : RawTags) (k : String) : PyVal :=
  match List.lookup k raw with
  | none => PyVal.vnone
  | some values => PyVal.vstr (pyCommaJoin values)

/-- Construction of the normalized `tags` dict of a success record, lines
136-144, in the source's key insertion order.  ARTIST and ALBUMARTIST are
comma-joined; ALBUM, TITLE, TRACKNUMBER, DISCNUMBER and DATE take element
`[0]` of the value list, which raises on an empty list. -/
def normalizeTags (raw : RawTags) : Except Unit TagDict :=
  match firstValueField raw keyALBUM with
  | Except.error e => Except.error e
  | Except.ok album =>
    match firstValueField raw keyTITLE with
    | Except.error e => Except.error e
    | Except.ok title =>
      match firstValueField raw keyTRACKNUMBER with
      | Except.error e => Except.error e
      | Except.ok track =>
        match firstValueField raw keyDISCNUMBER with
        | Except.error e => Except.error e
        | Except.ok disc =>
          match firstValueField raw keyDATE with
          | Except.error e => Except.error e
          | Except.ok date =>
            Except.ok
              [(keyARTIST, joinedValueField raw keyARTIST),
               (keyALBUMARTIST, joinedValueField raw keyALBUMARTIST),
               (keyALBUM, album),
               (keyTITLE, title),
               (keyTRACKNUMBER, track),
               (keyDISCNUMBER, disc),
               (keyDATE, date)]

/-- The record stored when extraction of a file fails (lines 128-133 and
155-161; the repeated `has_cover` key of the line-155 dict leaves a single
`has_cover: False` entry): empty tag dict, `errored = True`, empty
`erroneous_tags`, `has_cover = False`. -/
def erroredItem : MediaInfoItem :=
  { tags := [], errored := true, erroneous_tags := [], has_cover := false }

abbrev MediaInfoMap := List (String × MediaInfoItem)

/-- CPython dict write `d[k] = v`: an existing key keeps its position and
gets the new value, a fresh key is appended. -/
def dictWrite (m : MediaInfoMap) (k : String) (v : MediaInfoItem) : MediaInfoMap :=
  if (List.lookup k m).isSome then
    m.map (fun kv => if kv.1 = k then (kv.1, v) else kv)
  else
    m ++ [(k, v)]

/-- The loop state of `scan_media_info`'s extraction loop (lines 120-161):
the `media_info` dict built so far, and the current value of the local
variable `media_info_item`, which is assigned only in the success branch
(line 135) and therefore persists across iterations (`none` = not yet
bound, so that reading it raises `NameError`). -/
structure ScanState where
  media_info : MediaInfoMap
  lastItem : Option MediaInfoItem

/-- One iteration of the extraction loop (lines 121-161), faithful to the
control flow, including the misplaced line 152
(`media_info[media_file] = media_info_item`), which executes after BOTH
branches of the `if not file_info` test:
  * capability raises → bare `except` stores `erroredItem` (lines
    153-161);
  * falsy file object → line 128 stores `erroredItem`, then line 152
    overwrites it with the stale `media_info_item` of the last successful
    file — or, if no file has succeeded yet, raises `NameError`, which the
    bare `except` turns into `erroredItem`;
  * success → normalized record is built (an `IndexError` inside the
    build is caught by the bare `except`, leaving `media_info_item`
    unchanged) and stored, twice harmlessly, at lines 135-152. -/
def scanFileStep (tagread : TagReader) (st : ScanState) (f : String) : ScanState :=
  match tagread f with
  | Except.error _ =>
      { media_info := dictWrite st.media_info f erroredItem, lastItem := st.lastItem }
  | Except.ok none =>
      match st.lastItem with
      | none =>
          { media_info := dictWrite st.media_info f erroredItem, lastItem := none }
      | some prev =>
          { media_info := dictWrite st.media_info f prev, lastItem := some prev }
  | Except.ok (some raw) =>
      match normalizeTags raw with
      | Except.error _ =>
          { media_info := dictWrite st.media_info f erroredItem, lastItem := st.lastItem }
      | Except.ok t =>
          let item : MediaInfoItem :=
            { tags := t, errored := false, erroneous_tags := [], has_cover := false }
          { media_info := dictWrite st.media_info f item, lastItem := some item }

/-- The extraction path of `scan_media_info` (lines 106-170) on a cache
miss: fold the per-file step over the path list, starting from the empty
dict.  (On a cache hit the function instead returns the deserialized
contents of `info.json`, i.e. whatever a previous run persisted; the
cache file itself is external state and not modelled here.) -/
def scan_media_info (tagread : TagReader) (media_files : List String) : MediaInfoMap :=
  (media_files.foldl (scanFileStep tagread) { media_info := [], lastItem := none }).media_info

/-- `if det(...) and tag not in item['erroneous_tags']:
item['erroneous_tags'].append(tag)` — the guarded append of lines
196-201. -/
def appendIfErroneous (b : Bool) (tag : String) (l : List String) : List String :=
  if b && !(List.contains l tag) then l ++ [tag] else l

/-- The loop body of `scan_erroneous_tags` for one record (lines
195-201): three guarded appends in source order.  The predicates read
only `tags`, while the membership guards read the list as mutated so
far. -/
def validateItem (i : MediaInfoItem) : MediaInfoItem :=
  let l1 := appendIfErroneous (determine_erroneous_track_num i) keyTRACKNUMBER i.erroneous_tags
  let l2 := appendIfErroneous (determine_erroneous_disc_num i) keyDISCNUMBER l1
  let l3 := appendIfErroneous (determine_erroneous_date i) keyDATE l2
  { i with erroneous_tags := l3 }

/-- In-place update of `media_info[f]` by a per-record function, as the
validation and cover loops do.  (Python would raise `KeyError` for a path
absent from the dict; in the pipeline every iterated path is a key, and a
missing key is modelled as a no-op.) -/
def updateRecordAt (g : String → MediaInfoItem → MediaInfoItem)
    (m : MediaInfoMap) (f : String) : MediaInfoMap :=
  m.map (fun kv => if kv.1 = f then (kv.1, g kv.1 kv.2) else kv)

/-- `scan_erroneous_tags` (lines 192-203): for each media file, mutate its
record's `erroneous_tags` by the three guarded appends, returning the
map. -/
def scan_erroneous_tags (media_files : List String) (media_info : MediaInfoMap) : MediaInfoMap :=
  media_files.foldl (updateRecordAt (fun _ i => validateItem i)) media_info

/-- Result of the cover-art capability (`ArtFile`): image bytes (Python
`None` and `b''` are both falsy, modelled as the empty list) and an
optional MIME type string (`None` and `''` are both falsy). -/
structure ArtResult where
  image_data : List (Fin 256)
  mime_type : Option String
deriving DecidableEq, Repr

/-- The cover-art capability, opaque per the spec: raises or returns an
`ArtResult`. -/
abbrev ArtReader := String → Except Unit ArtResult

/-- Python truthiness of `art_file.mime_type`. -/
def mimeTruthy : Option String → Bool
  | none => false
  | some s => !(s = "")

/-- The per-file body of `scan_album_covers` (lines 177-187):
`if not art_file.image_data and not art_file.mime_type` set
`has_cover = False`, ELSE set it `True`; any exception sets `False`. -/
def coverStep (art : ArtReader) (f : String) (i : MediaInfoItem) : MediaInfoItem :=
  match art f with
  | Except.error _ => { i with has_cover := false }
  | Except.ok a =>
      if a.image_data.isEmpty && !mimeTruthy a.mime_type then
        { i with has_cover := false }
      else
        { i with has_cover := true }

/-- `scan_album_covers` (lines 173-189): for each media file, set its
record's `has_cover` from the capability result, returning the map. -/
def scan_album_covers (art : ArtReader) (media_files : List String) (media_info : MediaInfoMap) : MediaInfoMap :=
  media_files.foldl (updateRecordAt (coverStep art)) media_info

/-- The report selection predicate of line 258:
`len(erroneous_tags) or (not has_cover and not skip_album_covers) or
errored`. -/
def reportPred (skipAlbumCovers : Bool) (i : MediaInfoItem) : Bool :=
  !i.erroneous_tags.isEmpty || (!i.has_cover && !skipAlbumCovers) || i.errored

/-- The filtered entry list of line 258, in map iteration (= insertion)
order; the comprehension passes the values of these entries to
`dict_list_to_html`. -/
def selectedEntries (skipAlbumCovers : Bool) (m : MediaInfoMap) : MediaInfoMap :=
  m.filter (fun kv => reportPred skipAlbumCovers kv.2)

/-- Python `str` of a bool, as rendered by the f-strings of
`dict_list_to_html`. -/
def pyStrOfBool (b : Bool) : String :=
  if b then "True" else "False"

/-- Python `str` of a tag value inside the nested-list rendering. -/
def pyStrOfPyVal : PyVal → String
  | PyVal.vnone => "None"
  | PyVal.vstr s => s

/-- Python `str` of a list of strings (`repr` element quoting). -/
def pyStrOfStrList (l : List String) : String :=
  "[" ++ String.intercalate (", " : String) (l.map (fun s => "\x27" ++ s ++ "\x27")) ++ "]"

/-- The fixed HTML document prefix of lines 207-220 (whitespace
compressed). -/
def htmlPrefix : String :=
  "<!DOCTYPE html><html lang=\"en\"><head><meta charset=\"UTF-8\">" ++
  "<meta name=\"viewport\" content=\"width=device-width, initial-scale=1.0\">" ++
  "<title>Report</title>" ++
  "<link rel=\"stylesheet\" href=\"https://stackpath.bootstrapcdn.com/bootstrap/4.5.2/css/bootstrap.min.css\">" ++
  "</head><body><div class=\"container\"><table class=\"table table-bordered\">" ++
  "<thead class=\"thead-dark\"><tr>"

/-- The fixed HTML document suffix of lines 238-243. -/
def htmlSuffix : String :=
  "</tbody></table></div></body></html>"

/-- The keys of a record dict, used for the header row
(`dict_list[0].keys()`, line 222), in the insertion order of the success
record (lines 135-148).  (A first record produced by the bare `except`
path would order them `tags, has_cover, errored, erroneous_tags` because
of the duplicated `has_cover` key at lines 155-161; the ordering is
immaterial to every claim.) -/
def recordKeys : List String :=
  ["tags", "errored", "erroneous_tags", "has_cover"]

/-- One `<td>` cell: dict values render as a `<ul>` of `key: value`
items, others via `str` (lines 226-236). -/
def renderTagsCell (t : TagDict) : String :=
  "<td><ul>" ++
    t.foldl (fun acc kv => acc ++ "<li>" ++ kv.1 ++ ": " ++ pyStrOfPyVal kv.2 ++ "</li>") ("" : String) ++
  "</ul></td>"

/-- One table row for a record, fields in `recordKeys` order. -/
def renderRow (i : MediaInfoItem) : String :=
  "<tr>" ++ renderTagsCell i.tags ++
    "<td>" ++ pyStrOfBool i.errored ++ "</td>" ++
    "<td>" ++ pyStrOfStrList i.erroneous_tags ++ "</td>" ++
    "<td>" ++ pyStrOfBool i.has_cover ++ "</td>" ++ "</tr>"

/-- `dict_list_to_html` (lines 206-244).  Line 222 reads `dict_list[0]`,
which raises `IndexError` on an empty list — modelled by `none`;
otherwise the document is assembled from the header (keys of the first
record) and one row per record. -/
def dict_list_to_html (dict_list : List MediaInfoItem) : Option String :=
  match dict_list with
  | [] => none
  | _ :: _ =>
      some (htmlPrefix ++
        String.join (recordKeys.map (fun k => "<th>" ++ k ++ "</th>")) ++
        "</tr></thead><tbody>" ++
        String.join (dict_list.map renderRow) ++
        htmlSuffix)

/-- The report stage of the module body (lines 256-263): if the map is
empty nothing is written; otherwise the HTML document is built from the
values of the selected entries — raising (`none`) when the selection is
empty — and only then is the full map serialized as `report.json`.
The result is `some (html, jsonEntries)` when both artifacts are
produced. -/
def buildReports (skipAlbumCovers : Bool) (m : MediaInfoMap) : Option (String × MediaInfoMap) :=
  if m.isEmpty then
    none
  else
    match dict_list_to_html ((selectedEntries skipAlbumCovers m).map Prod.snd) with
    | none => none
    | some h => some (h, m)

/-- Python whitespace characters stripped by `str.rstrip()` (restricted
to the ASCII set; library paths are the only inputs). -/
def pyWhitespaceChar (c : Char) : Bool :=
  c = ' ' || c = '\t' || c = '\n' || c = '\r' || c = '\x0b' || c = '\x0c'

/-- `content.rstrip()` on the cache file contents (line 57), over the
character-list model of a Python string. -/
def pyRstrip (s : List Char) : List Char :=
  (s.reverse.dropWhile pyWhitespaceChar).reverse

/-- `content.split('\n')` (line 57): Python `str.split` with an explicit
separator; the empty string yields `['']`. -/
def pySplitNewline : List Char → List (List Char)
  | [] => [[]]
  | c :: cs =>
      if c = '\n' then
        [] :: pySplitNewline cs
      else
        match pySplitNewline cs with
        | [] => [[c]]
        | p :: ps => (c :: p) :: ps

/-- The cache write of `scan_library` (line 69): `'\n'.join(media_files)`,
performed only when at least one file was found (line 66). -/
def writeFileListCache (media_files : List (List Char)) : List Char :=
  List.intercalate [('\n')] media_files

/-- The cache load of `scan_library` (line 57):
`cf.read().rstrip().split('\n')`. -/
def loadFileListCache (content : List Char) : List (List Char) :=
  pySplitNewline (pyRstrip content)

/-- A character list (Python string) whose last character, if any, is not
Python whitespace — the "no trailing whitespace" condition of C9. -/
def noTrailingWS (p : List Char) : Bool :=
  match p.getLast? with
  | none => true
  | some c => !pyWhitespaceChar c


/-- Shorthand for a freshly extracted success record (lines 135-148)
before validation and cover scanning. -/
def recordWithTags (t : TagDict) : MediaInfoItem :=
  { tags := t, errored := false, erroneous_tags := [], has_cover := false }

/-- The observable outcome of one cover check (lines 177-187): `false` on
exception, otherwise the negation of `not image_data and not mime_type`. -/
def coverOutcome (art : ArtReader) (f : String) : Bool :=
  match art f with
  | Except.error _ => false
  | Except.ok a => !(a.image_data.isEmpty && !mimeTruthy a.mime_type)

/-- Modelled from the spec words of C4 only, for comparison with the
source's `normalizeTags`: "normalize each recognized field (join
multi-values with a comma; absent field -> null)" applied to EVERY
recognized field. -/
def specJoinAllFields (raw : RawTags) : TagDict :=
  [(keyARTIST, joinedValueField raw keyARTIST),
   (keyALBUMARTIST, joinedValueField raw keyALBUMARTIST),
   (keyALBUM, joinedValueField raw keyALBUM),
   (keyTITLE, joinedValueField raw keyTITLE),
   (keyTRACKNUMBER, joinedValueField raw keyTRACKNUMBER),
   (keyDISCNUMBER, joinedValueField raw keyDISCNUMBER),
   (keyDATE, joinedValueField raw keyDATE)]

/-- Two concrete library paths used in the concrete-run theorems. -/
def fileA : String := "f1"

def fileB : String := "f2"

/-- Concrete raw tags: two ARTIST values, two ALBUM values, no
ALBUMARTIST, no DISCNUMBER. -/
def sampleRaw : RawTags :=
  [(keyARTIST, ["Artist A", "Artist B"]),
   (keyALBUM, ["Album X", "Album Y"]),
   (keyTITLE, ["Title"]),
   (keyTRACKNUMBER, ["5"]),
   (keyDATE, ["2020"])]

/-- The dict `normalizeTags` produces from `sampleRaw`. -/
def sampleNormTags : TagDict :=
  [(keyARTIST, PyVal.vstr ("Artist A,Artist B")),
   (keyALBUMARTIST, PyVal.vnone),
   (keyALBUM, PyVal.vstr ("Album X")),
   (keyTITLE, PyVal.vstr ("Title")),
   (keyTRACKNUMBER, PyVal.vstr ("5")),
   (keyDISCNUMBER, PyVal.vnone),
   (keyDATE, PyVal.vstr ("2020"))]

/-- The success record extracted from `sampleRaw`. -/
def sampleItem : MediaInfoItem := recordWithTags sampleNormTags

/-- A tag reader under which `fileA` succeeds with `sampleRaw` and every
other path yields a falsy file object (the `if not file_info` branch). -/
def staleReader : TagReader :=
  fun f => if f = fileA then Except.ok (some sampleRaw) else Except.ok none

/-- A tag reader that raises on every path. -/
def raisingReader : TagReader := fun _ => Except.error ()

/-- What `erroredItem` becomes after one validation pass: the empty tag
dict fails the TRACKNUMBER and DATE predicates and passes DISCNUMBER. -/
def validatedErroredItem : MediaInfoItem :=
  { tags := [], errored := true, erroneous_tags := [keyTRACKNUMBER, keyDATE], has_cover := false }

/-- A cover-art capability result with empty image bytes but a MIME type
present. -/
def mimeOnlyArt : ArtResult :=
  { image_data := [], mime_type := some ("image/jpeg") }

/-- A cover-art reader returning `mimeOnlyArt` for every path. -/
def mimeOnlyReader : ArtReader := fun _ => Except.ok mimeOnlyArt

/-- A fully clean record that also has cover art: excluded from the HTML
selection. -/
def coveredCleanItem : MediaInfoItem :=
  { tags := [], errored := false, erroneous_tags := [], has_cover := true }


theorem appendIfErroneous_of_mem (b : Bool) (tag : String) (l : List String)
    (h : tag ∈ l) : appendIfErroneous b tag l = l := by
  simp [appendIfErroneous, h]

theorem appendIfErroneous_false (tag : String) (l : List String) :
    appendIfErroneous false tag l = l := rfl

theorem mem_appendIfErroneous_self (tag : String) (l : List String) :
    tag ∈ appendIfErroneous true tag l := by
  by_cases h : tag ∈ l
  · simp [appendIfErroneous, h]
  · simp [appendIfErroneous, h]

theorem mem_appendIfErroneous_mono (b : Bool) (tag x : String) (l : List String)
    (h : x ∈ l) : x ∈ appendIfErroneous b tag l := by
  unfold appendIfErroneous
  split
  · exact List.mem_append.mpr (Or.inl h)
  · exact h

theorem appendIfErroneous_nodup (b : Bool) (tag : String) (l : List String)
    (h : l.Nodup) : (appendIfErroneous b tag l).Nodup := by
  by_cases hm : tag ∈ l
  · simpa [appendIfErroneous_of_mem b tag l hm] using h
  · unfold appendIfErroneous
    split
    · simpa [List.nodup_append] using ⟨h, hm⟩
    · exact h

theorem validateItem_tags (i : MediaInfoItem) : (validateItem i).tags = i.tags := rfl

theorem validateItem_errored (i : MediaInfoItem) : (validateItem i).errored = i.errored := rfl

theorem det_track_validateItem (i : MediaInfoItem) :
    determine_erroneous_track_num (validateItem i) = determine_erroneous_track_num i := rfl

theorem det_disc_validateItem (i : MediaInfoItem) :
    determine_erroneous_disc_num (validateItem i) = determine_erroneous_disc_num i := rfl

theorem det_date_validateItem (i : MediaInfoItem) :
    determine_erroneous_date (validateItem i) = determine_erroneous_date i := rfl

theorem validateItem_eq (i : MediaInfoItem) :
    validateItem i =
      { i with erroneous_tags :=
          (appendIfErroneous (determine_erroneous_date i) keyDATE
            (appendIfErroneous (determine_erroneous_disc_num i) keyDISCNUMBER
              (appendIfErroneous (determine_erroneous_track_num i) keyTRACKNUMBER
                i.erroneous_tags))) } := rfl

theorem track_mem_validateItem (i : MediaInfoItem)
    (h : determine_erroneous_track_num i = true) :
    keyTRACKNUMBER ∈ (validateItem i).erroneous_tags := by
  rw [validateItem_eq]
  refine mem_appendIfErroneous_mono _ _ _ _ (mem_appendIfErroneous_mono _ _ _ _ ?_)
  rw [h]
  exact mem_appendIfErroneous_self _ _

theorem disc_mem_validateItem (i : MediaInfoItem)
    (h : determine_erroneous_disc_num i = true) :
    keyDISCNUMBER ∈ (validateItem i).erroneous_tags := by
  rw [validateItem_eq]
  refine mem_appendIfErroneous_mono _ _ _ _ ?_
  rw [h]
  exact mem_appendIfErroneous_self _ _

theorem date_mem_validateItem (i : MediaInfoItem)
    (h : determine_erroneous_date i = true) :
    keyDATE ∈ (validateItem i).erroneous_tags := by
  rw [validateItem_eq]
  rw [h]
  exact mem_appendIfErroneous_self _ _

theorem appendIfErroneous_absorb (b : Bool) (tag : String) (l : List String)
    (h : b = true → tag ∈ l) : appendIfErroneous b tag l = l := by
  cases b
  · exact appendIfErroneous_false tag l
  · exact appendIfErroneous_of_mem _ _ _ (h rfl)

theorem validateItem_idem (i : MediaInfoItem) :
    validateItem (validateItem i) = validateItem i := by
  have a1 : appendIfErroneous (determine_erroneous_track_num (validateItem i)) keyTRACKNUMBER
      (validateItem i).erroneous_tags = (validateItem i).erroneous_tags := by
    rw [det_track_validateItem]
    exact appendIfErroneous_absorb _ _ _ (fun h => track_mem_validateItem i h)
  have a2 : appendIfErroneous (determine_erroneous_disc_num (validateItem i)) keyDISCNUMBER
      (validateItem i).erroneous_tags = (validateItem i).erroneous_tags := by
    rw [det_disc_validateItem]
    exact appendIfErroneous_absorb _ _ _ (fun h => disc_mem_validateItem i h)
  have a3 : appendIfErroneous (determine_erroneous_date (validateItem i)) keyDATE
      (validateItem i).erroneous_tags = (validateItem i).erroneous_tags := by
    rw [det_date_validateItem]
    exact appendIfErroneous_absorb _ _ _ (fun h => date_mem_validateItem i h)
  calc validateItem (validateItem i)
      = { validateItem i with erroneous_tags :=
            (appendIfErroneous (determine_erroneous_date (validateItem i)) keyDATE
              (appendIfErroneous (determine_erroneous_disc_num (validateItem i)) keyDISCNUMBER
                (appendIfErroneous (determine_erroneous_track_num (validateItem i)) keyTRACKNUMBER
                  (validateItem i).erroneous_tags))) } := validateItem_eq _
    _ = validateItem i := by rw [a1, a2, a3]

theorem validateItem_nodup (i : MediaInfoItem) (h : i.erroneous_tags.Nodup) :
    (validateItem i).erroneous_tags.Nodup := by
  rw [validateItem_eq]
  exact appendIfErroneous_nodup _ _ _ (appendIfErroneous_nodup _ _ _ (appendIfErroneous_nodup _ _ _ h))

theorem updateRecordAt_comm (g : String → MediaInfoItem → MediaInfoItem)
    (m : MediaInfoMap) (f f' : String) :
    updateRecordAt g (updateRecordAt g m f) f' = updateRecordAt g (updateRecordAt g m f') f := by
  unfold updateRecordAt
  rw [List.map_map, List.map_map]
  apply List.map_congr_left
  intro kv _
  rcases kv with ⟨k, v⟩
  by_cases hf : k = f
  · by_cases hf' : k = f'
    · subst hf
      subst hf'
      simp
    · subst hf
      simp [hf']
  · by_cases hf' : k = f'
    · subst hf'
      simp [hf]
    · simp [hf, hf']

theorem foldl_updateRecordAt_comm (g : String → MediaInfoItem → MediaInfoItem)
    (fs : List String) (m : MediaInfoMap) (f : String) :
    List.foldl (updateRecordAt g) (updateRecordAt g m f) fs =
      updateRecordAt g (List.foldl (updateRecordAt g) m fs) f := by
  induction fs generalizing m with
  | nil => rfl
  | cons f' fs ih =>
      simp only [List.foldl_cons]
      rw [updateRecordAt_comm, ih]

theorem updateRecordAt_idem (g : String → MediaInfoItem → MediaInfoItem)
    (hg : ∀ k i, g k (g k i) = g k i) (m : MediaInfoMap) (f : String) :
    updateRecordAt g (updateRecordAt g m f) f = updateRecordAt g m f := by
  unfold updateRecordAt
  rw [List.map_map]
  apply List.map_congr_left
  intro kv _
  rcases kv with ⟨k, v⟩
  by_cases hf : k = f
  · subst hf
    simp [hg]
  · simp [hf]

theorem foldl_updateRecordAt_idem (g : String → MediaInfoItem → MediaInfoItem)
    (hg : ∀ k i, g k (g k i) = g k i) (fs : List String) (m : MediaInfoMap) :
    List.foldl (updateRecordAt g) (List.foldl (updateRecordAt g) m fs) fs =
      List.foldl (updateRecordAt g) m fs := by
  induction fs generalizing m with
  | nil => rfl
  | cons f fs ih =>
      simp only [List.foldl_cons]
      calc List.foldl (updateRecordAt g)
              (updateRecordAt g (List.foldl (updateRecordAt g) (updateRecordAt g m f) fs) f) fs
          = updateRecordAt g
              (List.foldl (updateRecordAt g)
                (List.foldl (updateRecordAt g) (updateRecordAt g m f) fs) fs) f := by
            rw [foldl_updateRecordAt_comm]
        _ = updateRecordAt g (List.foldl (updateRecordAt g) (updateRecordAt g m f) fs) f := by
            rw [ih]
        _ = updateRecordAt g (updateRecordAt g (List.foldl (updateRecordAt g) m fs) f) f := by
            rw [foldl_updateRecordAt_comm]
        _ = updateRecordAt g (List.foldl (updateRecordAt g) m fs) f := updateRecordAt_idem g hg _ _
        _ = List.foldl (updateRecordAt g) (updateRecordAt g m f) fs := by
            rw [foldl_updateRecordAt_comm]

theorem foldl_updateRecordAt_entries (g : String → MediaInfoItem → MediaInfoItem)
    (hg : ∀ k i, g k (g k i) = g k i) (fs : List String) (m : MediaInfoMap) :
    ∀ kv' ∈ List.foldl (updateRecordAt g) m fs,
      ∃ kv ∈ m, kv'.1 = kv.1 ∧ ((kv'.2 = kv.2 ∧ kv.1 ∉ fs) ∨ kv'.2 = g kv.1 kv.2) := by
  induction fs generalizing m with
  | nil =>
      intro kv' h
      exact ⟨kv', h, rfl, Or.inl ⟨rfl, List.not_mem_nil _⟩⟩
  | cons f fs ih =>
      intro kv' h
      simp only [List.foldl_cons] at h
      obtain ⟨kv₁, h₁, hkey, hval⟩ := ih (updateRecordAt g m f) kv' h
      unfold updateRecordAt at h₁
      obtain ⟨kv₀, h₀, heq⟩ := List.mem_map.mp h₁
      by_cases hf : kv₀.1 = f
      · refine ⟨kv₀, h₀, ?_, ?_⟩
        · rw [hkey, ← heq]
          simp [hf]
        · right
          have hv₁ : kv₁.2 = g kv₀.1 kv₀.2 := by rw [← heq]; simp [hf]
          rcases hval with ⟨hv, _⟩ | hv
          · rw [hv, hv₁]
          · have hk₁ : kv₁.1 = kv₀.1 := by rw [← heq]; simp [hf]
            rw [hv, hk₁, hv₁]
            exact hg kv₀.1 kv₀.2
      · have hkv : kv₁ = kv₀ := by rw [← heq]; simp [hf]
        refine ⟨kv₀, h₀, by rw [hkey, hkv], ?_⟩
        rcases hval with ⟨hv, hnm⟩ | hv
        · left
          refine ⟨by rw [hv, hkv], ?_⟩
          intro hc
          rcases List.mem_cons.mp hc with hc | hc
          · exact hf hc
          · exact hnm (hkv ▸ hc)
        · right
          rw [hv, hkv]

theorem mem_dictWrite (m : MediaInfoMap) (k : String) (v : MediaInfoItem) :
    ∀ kv ∈ dictWrite m k v, kv ∈ m ∨ (kv.1 = k ∧ kv.2 = v) := by
  intro kv h
  unfold dictWrite at h
  split at h
  · obtain ⟨kv₀, h₀, heq⟩ := List.mem_map.mp h
    by_cases hf : kv₀.1 = k
    · right
      rw [← heq]
      simp [hf]
    · left
      rw [← heq]
      simpa [hf] using h₀
  · rcases List.mem_append.mp h with h | h
    · exact Or.inl h
    · right
      rcases List.mem_singleton.mp h with rfl
      exact ⟨rfl, rfl⟩


theorem scanFileStep_raise (tagread : TagReader) (st : ScanState) (f : String) (e : Unit)
    (h : tagread f = Except.error e) :
    scanFileStep tagread st f =
      { media_info := dictWrite st.media_info f erroredItem, lastItem := st.lastItem } := by
  unfold scanFileStep
  simp only [h]

theorem scanFileStep_falsy_first (tagread : TagReader) (st : ScanState) (f : String)
    (h : tagread f = Except.ok none) (hl : st.lastItem = none) :
    scanFileStep tagread st f =
      { media_info := dictWrite st.media_info f erroredItem, lastItem := none } := by
  unfold scanFileStep
  simp only [h, hl]

theorem scanFileStep_falsy_stale (tagread : TagReader) (st : ScanState) (f : String)
    (prev : MediaInfoItem) (h : tagread f = Except.ok none) (hl : st.lastItem = some prev) :
    scanFileStep tagread st f =
      { media_info := dictWrite st.media_info f prev, lastItem := some prev } := by
  unfold scanFileStep
  simp only [h, hl]

theorem scanFileStep_norm_raise (tagread : TagReader) (st : ScanState) (f : String)
    (raw : RawTags) (e : Unit) (h : tagread f = Except.ok (some raw))
    (hn : normalizeTags raw = Except.error e) :
    scanFileStep tagread st f =
      { media_info := dictWrite st.media_info f erroredItem, lastItem := st.lastItem } := by
  unfold scanFileStep
  simp only [h, hn]

theorem scanFileStep_success (tagread : TagReader) (st : ScanState) (f : String)
    (raw : RawTags) (t : TagDict) (h : tagread f = Except.ok (some raw))
    (hn : normalizeTags raw = Except.ok t) :
    scanFileStep tagread st f =
      { media_info := dictWrite st.media_info f
          { tags := t, errored := false, erroneous_tags := [], has_cover := false },
        lastItem := some { tags := t, errored := false, erroneous_tags := [], has_cover := false } } := by
  unfold scanFileStep
  simp only [h, hn]

/-- Invariant of the extraction loop: every stored record's key satisfies
`K`, every errored record is exactly `erroredItem`, and the
`media_info_item` local, when bound, is always a success record
(`errored = false`). -/
theorem scanFold_invariant (tagread : TagReader) (K : String → Prop) (fs : List String)
    (st : ScanState)
    (h1 : ∀ kv ∈ st.media_info, K kv.1 ∧ (kv.2.errored = true → kv.2 = erroredItem))
    (h2 : ∀ it, st.lastItem = some it → it.errored = false)
    (h3 : ∀ f ∈ fs, K f) :
    (∀ kv ∈ (List.foldl (scanFileStep tagread) st fs).media_info,
        K kv.1 ∧ (kv.2.errored = true → kv.2 = erroredItem)) ∧
      (∀ it, (List.foldl (scanFileStep tagread) st fs).lastItem = some it →
        it.errored = false) := by
  induction fs generalizing st with
  | nil => exact ⟨h1, h2⟩
  | cons f fs ih =>
      simp only [List.foldl_cons]
      have hKf : K f := h3 f (List.mem_cons_self f fs)
      have h3' : ∀ f' ∈ fs, K f' := fun f' hf' => h3 f' (List.mem_cons_of_mem f hf')
      have hwrite : ∀ v : MediaInfoItem, (v.errored = true → v = erroredItem) →
          ∀ kv ∈ dictWrite st.media_info f v, K kv.1 ∧ (kv.2.errored = true → kv.2 = erroredItem) := by
        intro v hv kv hkv
        rcases mem_dictWrite _ _ _ kv hkv with hm | ⟨hk, hvv⟩
        · exact h1 kv hm
        · exact ⟨hk ▸ hKf, fun he => (hvv ▸ hv) (hvv ▸ he)⟩
      rcases htr : tagread f with e | o
      · rw [scanFileStep_raise tagread st f e htr]
        exact ih _ (hwrite erroredItem (fun _ => rfl)) (fun it hit => h2 it hit) h3'
      · rcases o with _ | raw
        · rcases hli : st.lastItem with _ | prev
          · rw [scanFileStep_falsy_first tagread st f htr hli]
            refine ih _ (hwrite erroredItem (fun _ => rfl)) ?_ h3'
            intro it hit
            exact absurd hit (by simp)
          · rw [scanFileStep_falsy_stale tagread st f prev htr hli]
            have hprev : prev.errored = false := h2 prev hli
            refine ih _ (hwrite prev ?_) ?_ h3'
            · intro he
              rw [hprev] at he
              exact absurd he (by simp)
            · intro it hit
              simp only [Option.some.injEq] at hit
              rw [← hit]
              exact hprev
        · rcases hnt : normalizeTags raw with e | t
          · rw [scanFileStep_norm_raise tagread st f raw e htr hnt]
            exact ih _ (hwrite erroredItem (fun _ => rfl)) (fun it hit => h2 it hit) h3'
          · rw [scanFileStep_success tagread st f raw t htr hnt]
            refine ih _ (hwrite _ ?_) ?_ h3'
            · intro he
              exact absurd he (by simp)
            · intro it hit
              simp only [Option.some.injEq] at hit
              rw [← hit]

/-- Every record produced by the extraction path has its key among the
scanned files, and every errored record is exactly `erroredItem`. -/
theorem scan_media_info_entries (tagread : TagReader) (files : List String) :
    ∀ kv ∈ scan_media_info tagread files,
      kv.1 ∈ files ∧ (kv.2.errored = true → kv.2 = erroredItem) := by
  intro kv hkv
  exact (scanFold_invariant tagread (· ∈ files) files
    { media_info := [], lastItem := none }
    (by intro kv h; exact absurd h (List.not_mem_nil kv))
    (by intro it h; exact absurd h (by simp))
    (fun f hf => hf)).1 kv hkv

theorem coverStep_has_cover (art : ArtReader) (f : String) (i : MediaInfoItem) :
    (coverStep art f i).has_cover = coverOutcome art f := by
  unfold coverStep coverOutcome
  rcases hak : art f with e | a
  · rfl
  · cases hb : a.image_data.isEmpty && !mimeTruthy a.mime_type <;> simp [hb]

theorem coverStep_tags (art : ArtReader) (f : String) (i : MediaInfoItem) :
    (coverStep art f i).tags = i.tags := by
  unfold coverStep
  rcases hak : art f with e | a
  · rfl
  · cases hb : a.image_data.isEmpty && !mimeTruthy a.mime_type <;> simp [hb]

theorem coverStep_idem (art : ArtReader) :
    ∀ k i, coverStep art k (coverStep art k i) = coverStep art k i := by
  intro k i
  unfold coverStep
  rcases hak : art k with e | a
  · rfl
  · cases hb : a.image_data.isEmpty && !mimeTruthy a.mime_type <;> simp [hb]

/-- C3: the claim reads "DISCNUMBER is clean iff absent, empty, or a
1-to-3-digit positive integer up to 100 with optional slash-separated
total; absent, the empty string and 2 are clean, 200 is erroneous".  On
the code, a missing key, the empty string and 2 are indeed clean, but 200
is also CLEAN (the malformed regex only inspects the first one or two
characters), and the normalized form of an absent source field — the key
present with value `None` — is ERRONEOUS (`isinstance(None, str)` is
false and the `not in` test does not fire).  The conjuncts below evaluate
`determine_erroneous_disc_num` at each of these inputs. -/
theorem C3_disc_num_code_bug_eval :
    determine_erroneous_disc_num (recordWithTags []) = false ∧
    determine_erroneous_disc_num (recordWithTags [(keyDISCNUMBER, PyVal.vstr (""))]) = false ∧
    determine_erroneous_disc_num (recordWithTags [(keyDISCNUMBER, PyVal.vstr ("2"))]) = false ∧
    determine_erroneous_disc_num (recordWithTags [(keyDISCNUMBER, PyVal.vstr ("200"))]) = false ∧
    determine_erroneous_disc_num (recordWithTags [(keyDISCNUMBER, PyVal.vnone)]) = true := by
  exact ⟨rfl, rfl, rfl, rfl, rfl⟩

/-- C5: the claim's concrete classifications all hold on the code (5 and
5/12 clean; 0, abc and an absent field erroneous), but its parenthetical
rule "clean requires a present string matching a 1-to-3-digit positive
integer up to 100, optionally followed by a slash and a like-shaped
total" does not: the malformed regex also accepts 5abc and 200 (and any
string whose first character is `[` or 1-9).  The last two conjuncts
evaluate the code at those inputs. -/
theorem C5_track_num_code_bug_eval :
    determine_erroneous_track_num (recordWithTags [(keyTRACKNUMBER, PyVal.vstr ("5"))]) = false ∧
    determine_erroneous_track_num (recordWithTags [(keyTRACKNUMBER, PyVal.vstr ("5/12"))]) = false ∧
    determine_erroneous_track_num (recordWithTags [(keyTRACKNUMBER, PyVal.vstr ("0"))]) = true ∧
    determine_erroneous_track_num (recordWithTags [(keyTRACKNUMBER, PyVal.vstr ("abc"))]) = true ∧
    determine_erroneous_track_num (recordWithTags []) = true ∧
    determine_erroneous_track_num (recordWithTags [(keyTRACKNUMBER, PyVal.vnone)]) = true ∧
    determine_erroneous_track_num (recordWithTags [(keyTRACKNUMBER, PyVal.vstr ("5abc"))]) = false ∧
    determine_erroneous_track_num (recordWithTags [(keyTRACKNUMBER, PyVal.vstr ("200"))]) = false := by
  exact ⟨rfl, rfl, rfl, rfl, rfl, rfl, rfl, rfl⟩

/-- C7: the claim says a tag-reading failure (exception or empty result)
yields `errored = true` with empty tags for that file only.  On the code,
the misplaced write at line 152 lets the falsy-file branch store the
PREVIOUS successful file's record instead: scanning `fileA` (success)
then `fileB` (falsy file object) leaves `fileB` mapped to `fileA`'s
record — `errored = false` and `fileA`'s tags — not an errored empty
record. -/
theorem C7_stale_overwrite_code_bug_eval :
    scan_media_info staleReader [fileA, fileB] = [(fileA, sampleItem), (fileB, sampleItem)] ∧
    sampleItem.errored = false ∧
    sampleItem ≠ erroredItem := by
  refine ⟨by decide, rfl, by decide⟩

/-- C1 counterexample: one path whose extraction raises.  The pipeline
(extraction then validation) leaves its record with `errored = true` AND
`erroneous_tags = [TRACKNUMBER, DATE]` — not empty: `scan_erroneous_tags`
never tests `errored`, and the empty tag dict fails the TRACKNUMBER and
DATE predicates. -/
theorem C1_counterexample :
    scan_erroneous_tags [fileA] (scan_media_info raisingReader [fileA]) =
      [(fileA, validatedErroredItem)] ∧
    validatedErroredItem.errored = true ∧
    validatedErroredItem.erroneous_tags ≠ [] := by
  refine ⟨by decide, rfl, by decide⟩

/-- C1 (amended): in every run of extraction followed by validation, a
record with `errored = true` has `erroneous_tags = [TRACKNUMBER, DATE]`
exactly — validation is not skipped; the errored record's empty tag dict
fails the TRACKNUMBER and DATE predicates and passes DISCNUMBER. -/
theorem C1_amended_errored_tags (tagread : TagReader) (files : List String) :
    ∀ kv ∈ scan_erroneous_tags files (scan_media_info tagread files),
      kv.2.errored = true → kv.2.erroneous_tags = [keyTRACKNUMBER, keyDATE] := by
  intro kv' hkv' herr
  unfold scan_erroneous_tags at hkv'
  obtain ⟨kv, hkv, hkey, hv⟩ :=
    foldl_updateRecordAt_entries (fun _ i => validateItem i) (fun _ i => validateItem_idem i)
      files (scan_media_info tagread files) kv' hkv'
  have hinv := scan_media_info_entries tagread files kv hkv
  rcases hv with ⟨hv, hnm⟩ | hv
  · exact absurd hinv.1 hnm
  · have herr0 : kv.2.errored = true := by
      rw [hv, validateItem_errored] at herr
      exact herr
    have heq : kv.2 = erroredItem := hinv.2 herr0
    rw [hv, heq]
    rfl

/-- C1 witness: the amended theorem applied to the concrete raising run
of `C1_counterexample`. -/
theorem C1_amended_witness :
    validatedErroredItem.erroneous_tags = [keyTRACKNUMBER, keyDATE] :=
  C1_amended_errored_tags raisingReader [fileA] (fileA, validatedErroredItem)
    (by decide) (by decide)

/-- C2 counterexample: the cover capability returns EMPTY image bytes
with a MIME type present; the code sets `has_cover = true` (the test at
line 179 is `not image_data AND not mime_type`, so either one being
truthy suffices), where the claim requires `false`. -/
theorem C2_counterexample :
    mimeOnlyArt.image_data = [] ∧
    mimeOnlyArt.mime_type = some ("image/jpeg") ∧
    scan_album_covers mimeOnlyReader [fileA] [(fileA, recordWithTags [])] =
      [(fileA, coveredCleanItem)] ∧
    coveredCleanItem.has_cover = true := by
  exact ⟨rfl, rfl, by decide, rfl⟩

/-- C2 (amended): for every file checked, the cover pass sets
`has_cover` to `coverOutcome`: true iff the capability returns without
raising AND at least one of non-empty image bytes or a truthy MIME type
is present — absence of BOTH (or an exception) gives false; empty bytes
with a MIME type present gives TRUE. -/
theorem C2_amended_cover_flag (art : ArtReader) (files : List String) (m : MediaInfoMap) :
    ∀ kv ∈ scan_album_covers art files m, kv.1 ∈ files →
      kv.2.has_cover = coverOutcome art kv.1 ∧
        (coverOutcome art kv.1 = true ↔
          ∃ a, art kv.1 = Except.ok a ∧
            (a.image_data ≠ [] ∨ mimeTruthy a.mime_type = true)) := by
  intro kv' hkv' hin
  constructor
  · unfold scan_album_covers at hkv'
    obtain ⟨kv, hkv, hkey, hv⟩ :=
      foldl_updateRecordAt_entries (coverStep art) (coverStep_idem art) files m kv' hkv'
    rcases hv with ⟨hv, hnm⟩ | hv
    · exact absurd (hkey ▸ hin) hnm
    · rw [hv, coverStep_has_cover, hkey]
  · unfold coverOutcome
    rcases hak : art kv'.1 with e | a
    · simp
    · simp only
      constructor
      · intro hb
        refine ⟨a, rfl, ?_⟩
        rcases he : a.image_data.isEmpty with _ | _
        · exact Or.inl (List.isEmpty_eq_false.mp he)
        · rcases hm : mimeTruthy a.mime_type with _ | _
          · rw [he, hm] at hb
            exact absurd hb (by simp)
          · exact Or.inr rfl
      · rintro ⟨a', ha', hcond⟩
        have haa : a' = a := by
          injection ha' with h
          exact h.symm
        subst haa
        rcases hcond with hne | hm
        · simp [List.isEmpty_eq_false.mpr hne]
        · simp [hm]

/-- C2 witness: the amended theorem applied to the concrete
mime-type-only run of `C2_counterexample`. -/
theorem C2_amended_witness :
    coveredCleanItem.has_cover = coverOutcome mimeOnlyReader fileA :=
  (C2_amended_cover_flag mimeOnlyReader [fileA] [(fileA, recordWithTags [])]
    (fileA, coveredCleanItem) (by decide) (by decide)).1

/-- C4 counterexample: `sampleRaw` carries two ALBUM values; the code
stores only the first ("Album X"), while the claim's join-every-field
normalization (`specJoinAllFields`, modelled from the spec words) would
store "Album X,Album Y". -/
theorem C4_counterexample :
    normalizeTags sampleRaw = Except.ok sampleNormTags ∧
    dictGet sampleNormTags keyALBUM = some (PyVal.vstr ("Album X")) ∧
    dictGet (specJoinAllFields sampleRaw) keyALBUM = some (PyVal.vstr ("Album X,Album Y")) ∧
    sampleNormTags ≠ specJoinAllFields sampleRaw := by
  exact ⟨rfl, rfl, rfl, by decide⟩

/-- C4 (amended): on successful extraction, ARTIST and ALBUMARTIST are
normalized by joining all source values with a comma, while ALBUM, TITLE,
TRACKNUMBER, DISCNUMBER and DATE keep only the FIRST source value; a
field absent from the source tags is stored as null (`None`), never as an
empty string. -/
theorem C4_amended_normalization (raw : RawTags) (t : TagDict)
    (h : normalizeTags raw = Except.ok t) :
    (∀ k ∈ [keyARTIST, keyALBUMARTIST, keyALBUM, keyTITLE, keyTRACKNUMBER, keyDISCNUMBER, keyDATE],
        List.lookup k raw = none → dictGet t k = some PyVal.vnone) ∧
    (∀ vs, List.lookup keyARTIST raw = some vs →
        dictGet t keyARTIST = some (PyVal.vstr (pyCommaJoin vs))) ∧
    (∀ vs, List.lookup keyALBUMARTIST raw = some vs →
        dictGet t keyALBUMARTIST = some (PyVal.vstr (pyCommaJoin vs))) ∧
    (∀ k ∈ [keyALBUM, keyTITLE, keyTRACKNUMBER, keyDISCNUMBER, keyDATE],
        ∀ v vs, List.lookup k raw = some (v :: vs) → dictGet t k = some (PyVal.vstr v)) := by
  rcases hA : firstValueField raw keyALBUM with eA | vA
  · simp only [normalizeTags, hA] at h
    exact absurd h (by simp)
  · rcases hT : firstValueField raw keyTITLE with eT | vT
    · simp only [normalizeTags, hA, hT] at h
      exact absurd h (by simp)
    · rcases hTr : firstValueField raw keyTRACKNUMBER with eTr | vTr
      · simp only [normalizeTags, hA, hT, hTr] at h
        exact absurd h (by simp)
      · rcases hD : firstValueField raw keyDISCNUMBER with eD | vD
        · simp only [normalizeTags, hA, hT, hTr, hD] at h
          exact absurd h (by simp)
        · rcases hDa : firstValueField raw keyDATE with eDa | vDa
          · simp only [normalizeTags, hA, hT, hTr, hD, hDa] at h
            exact absurd h (by simp)
          · simp only [normalizeTags, hA, hT, hTr, hD, hDa] at h
            injection h with ht
            subst ht
            refine ⟨?_, ?_, ?_, ?_⟩
            · intro k hk hnone
              simp only [List.mem_cons, List.not_mem_nil, or_false] at hk
              rcases hk with rfl | rfl | rfl | rfl | rfl | rfl | rfl
              · simp [dictGet, List.lookup, joinedValueField, hnone]
              · simp only [keyALBUMARTIST] at hnone
                simp [dictGet, List.lookup, joinedValueField, hnone,
                  keyARTIST, keyALBUMARTIST]
              · simp only [firstValueField, hnone] at hA
                injection hA with hA2
                subst hA2
                simp [dictGet, List.lookup, keyARTIST, keyALBUMARTIST, keyALBUM]
              · simp only [firstValueField, hnone] at hT
                injection hT with hT2
                subst hT2
                simp [dictGet, List.lookup, keyARTIST, keyALBUMARTIST, keyALBUM, keyTITLE]
              · simp only [firstValueField, hnone] at hTr
                injection hTr with hTr2
                subst hTr2
                simp [dictGet, List.lookup, keyARTIST, keyALBUMARTIST, keyALBUM, keyTITLE,
                  keyTRACKNUMBER]
              · simp only [firstValueField, hnone] at hD
                injection hD with hD2
                subst hD2
                simp [dictGet, List.lookup, keyARTIST, keyALBUMARTIST, keyALBUM, keyTITLE,
                  keyTRACKNUMBER, keyDISCNUMBER]
              · simp only [firstValueField, hnone] at hDa
                injection hDa with hDa2
                subst hDa2
                simp [dictGet, List.lookup, keyARTIST, keyALBUMARTIST, keyALBUM, keyTITLE,
                  keyTRACKNUMBER, keyDISCNUMBER, keyDATE]
            · intro vs hvs
              simp [dictGet, List.lookup, joinedValueField, hvs]
            · intro vs hvs
              simp only [keyALBUMARTIST] at hvs
              simp [dictGet, List.lookup, joinedValueField, hvs, keyARTIST, keyALBUMARTIST]
            · intro k hk v vs hlk
              simp only [List.mem_cons, List.not_mem_nil, or_false] at hk
              rcases hk with rfl | rfl | rfl | rfl | rfl
              · simp only [firstValueField, hlk] at hA
                injection hA with hA2
                subst hA2
                simp [dictGet, List.lookup, keyARTIST, keyALBUMARTIST, keyALBUM]
              · simp only [firstValueField, hlk] at hT
                injection hT with hT2
                subst hT2
                simp [dictGet, List.lookup, keyARTIST, keyALBUMARTIST, keyALBUM, keyTITLE]
              · simp only [firstValueField, hlk] at hTr
                injection hTr with hTr2
                subst hTr2
                simp [dictGet, List.lookup, keyARTIST, keyALBUMARTIST, keyALBUM, keyTITLE,
                  keyTRACKNUMBER]
              · simp only [firstValueField, hlk] at hD
                injection hD with hD2
                subst hD2
                simp [dictGet, List.lookup, keyARTIST, keyALBUMARTIST, keyALBUM, keyTITLE,
                  keyTRACKNUMBER, keyDISCNUMBER]
              · simp only [firstValueField, hlk] at hDa
                injection hDa with hDa2
                subst hDa2
                simp [dictGet, List.lookup, keyARTIST, keyALBUMARTIST, keyALBUM, keyTITLE,
                  keyTRACKNUMBER, keyDISCNUMBER, keyDATE]

/-- C4 witness: the amended theorem applied to `sampleRaw`, instantiated
at ALBUM (multi-valued, keeps only the first value) and ALBUMARTIST
(absent, stored as null). -/
theorem C4_amended_witness :
    dictGet sampleNormTags keyALBUM = some (PyVal.vstr ("Album X")) ∧
    dictGet sampleNormTags keyALBUMARTIST = some PyVal.vnone :=
  ⟨(C4_amended_normalization sampleRaw sampleNormTags rfl).2.2.2 keyALBUM (by decide)
      ("Album X") [("Album Y")] (by decide),
   (C4_amended_normalization sampleRaw sampleNormTags rfl).1 keyALBUMARTIST (by decide)
      (by decide)⟩

/-- C8: validation is idempotent — running `scan_erroneous_tags` a second
time over the unchanged result changes nothing — and, for a map whose
records carry duplicate-free `erroneous_tags` (as every record does at
creation, where the list is empty), every record after validation still
carries a duplicate-free `erroneous_tags` list: the membership guards of
lines 196-201 make the append a set union. -/
theorem C8_validation_idempotent_nodup (files : List String) (m : MediaInfoMap)
    (hnd : ∀ kv ∈ m, kv.2.erroneous_tags.Nodup) :
    scan_erroneous_tags files (scan_erroneous_tags files m) = scan_erroneous_tags files m ∧
    ∀ kv ∈ scan_erroneous_tags files m, kv.2.erroneous_tags.Nodup := by
  constructor
  · unfold scan_erroneous_tags
    exact foldl_updateRecordAt_idem _ (fun _ i => validateItem_idem i) files m
  · intro kv' hkv'
    unfold scan_erroneous_tags at hkv'
    obtain ⟨kv, hkv, _, hv⟩ :=
      foldl_updateRecordAt_entries (fun _ i => validateItem i) (fun _ i => validateItem_idem i)
        files m kv' hkv'
    rcases hv with ⟨hv, _⟩ | hv
    · rw [hv]
      exact hnd kv hkv
    · rw [hv]
      exact validateItem_nodup _ (hnd kv hkv)

/-- C8 witness: the theorem applied to a one-record map whose record
errored on extraction (so both TRACKNUMBER and DATE get flagged). -/
theorem C8_witness :
    scan_erroneous_tags [fileA] (scan_erroneous_tags [fileA] [(fileA, erroredItem)]) =
      scan_erroneous_tags [fileA] [(fileA, erroredItem)] ∧
    validatedErroredItem.erroneous_tags.Nodup :=
  ⟨(C8_validation_idempotent_nodup [fileA] [(fileA, erroredItem)] (by decide)).1,
   (C8_validation_idempotent_nodup [fileA] [(fileA, erroredItem)] (by decide)).2
      (fileA, validatedErroredItem) (by decide)⟩

/-- C6: whenever the report stage completes (the built pair exists), the
serialized JSON map is the FULL record map; an entry is selected for the
HTML document iff its record has non-empty `erroneous_tags`, or
`errored = true`, or (`has_cover = false` and cover checking was not
skipped); and a clean, unerrored, covered record is excluded from the
HTML selection while still present in the JSON map. -/
theorem C6_report_selection (skip : Bool) (m : MediaInfoMap) (k : String) (i : MediaInfoItem)
    (hm : (k, i) ∈ m) (hb : (buildReports skip m).isSome = true) :
    Option.map Prod.snd (buildReports skip m) = some m ∧
    ((k, i) ∈ selectedEntries skip m ↔
      (i.erroneous_tags ≠ [] ∨ i.errored = true ∨ (i.has_cover = false ∧ skip = false))) ∧
    ((i.erroneous_tags = [] ∧ i.errored = false ∧ i.has_cover = true) →
      (k, i) ∉ selectedEntries skip m) := by
  refine ⟨?_, ?_, ?_⟩
  · rcases hme : m.isEmpty with _ | _
    · rcases hdl : dict_list_to_html ((selectedEntries skip m).map Prod.snd) with _ | hs
      · simp only [buildReports, hme, hdl] at hb
        simp at hb
      · simp [buildReports, hme, hdl]
    · simp only [buildReports, hme] at hb
      simp at hb
  · simp [selectedEntries, List.mem_filter, reportPred, hm, List.isEmpty_eq_false]
    tauto
  · rintro ⟨h1, h2, h3⟩ hmem
    rw [selectedEntries, List.mem_filter] at hmem
    rcases hmem with ⟨_, hp⟩
    simp [reportPred, h1, h2, h3] at hp

/-- C6 witness: the theorem applied to a one-record map whose record is
errored (and therefore selected), with cover checking enabled. -/
theorem C6_witness :
    Option.map Prod.snd (buildReports false [(fileA, erroredItem)]) =
      some [(fileA, erroredItem)] ∧
    ((fileA, erroredItem) ∈ selectedEntries false [(fileA, erroredItem)] ↔
      (erroredItem.erroneous_tags ≠ [] ∨ erroredItem.errored = true ∨
        (erroredItem.has_cover = false ∧ false = false))) ∧
    ((erroredItem.erroneous_tags = [] ∧ erroredItem.errored = false ∧
        erroredItem.has_cover = true) →
      (fileA, erroredItem) ∉ selectedEntries false [(fileA, erroredItem)]) :=
  C6_report_selection false [(fileA, erroredItem)] fileA erroredItem (by decide) (by rfl)

/-- C10: a non-empty record map in which every record is clean, unerrored
and covered yields an empty HTML selection; `dict_list_to_html` then
reads element 0 of the empty list and fails (modelled by `none`), so the
report stage produces nothing — no empty table, and no JSON either. -/
theorem C10_all_clean_html_crash (skip : Bool) (m : MediaInfoMap) (hne : m ≠ [])
    (hclean : ∀ kv ∈ m, kv.2.erroneous_tags = [] ∧ kv.2.errored = false ∧
      kv.2.has_cover = true) :
    selectedEntries skip m = [] ∧
    dict_list_to_html ((selectedEntries skip m).map Prod.snd) = none ∧
    buildReports skip m = none := by
  have hsel : selectedEntries skip m = [] := by
    unfold selectedEntries
    rw [List.filter_eq_nil_iff]
    intro kv hkv
    obtain ⟨h1, h2, h3⟩ := hclean kv hkv
    simp [reportPred, h1, h2, h3]
  have hme : m.isEmpty = false := List.isEmpty_eq_false.mpr hne
  refine ⟨hsel, ?_, ?_⟩
  · rw [hsel]
    rfl
  · simp [buildReports, hme, hsel, dict_list_to_html]

/-- C10 witness: the theorem applied to a one-record map holding a clean
covered record. -/
theorem C10_witness :
    selectedEntries false [(fileA, coveredCleanItem)] = [] ∧
    dict_list_to_html ((selectedEntries false [(fileA, coveredCleanItem)]).map Prod.snd) = none ∧
    buildReports false [(fileA, coveredCleanItem)] = none :=
  C10_all_clean_html_crash false [(fileA, coveredCleanItem)] (by decide) (by decide)

theorem pyRstrip_eq_self (s : List Char) (hne : s ≠ []) (h : noTrailingWS s = true) :
    pyRstrip s = s := by
  unfold pyRstrip
  rcases hr : s.reverse with _ | ⟨c, t⟩
  · exact absurd (List.reverse_eq_nil_iff.mp hr) hne
  · have hlast : s.getLast? = some c := by
      rw [← List.head?_reverse, hr]
      rfl
    have hc : pyWhitespaceChar c = false := by
      unfold noTrailingWS at h
      rw [hlast] at h
      simpa using h
    rw [List.dropWhile_cons]
    simp [hc, ← hr]

theorem pySplitNewline_cons_eq (c : Char) (cs : List Char) :
    pySplitNewline (c :: cs) =
      if c = '\n' then [] :: pySplitNewline cs
      else match pySplitNewline cs with
        | [] => [[c]]
        | p :: ps => (c :: p) :: ps := rfl

theorem pySplitNewline_no_nl (p : List Char) (h : ('\n') ∉ p) : pySplitNewline p = [p] := by
  induction p with
  | nil => rfl
  | cons c cs ih =>
      have hc : ¬ c = '\n' := fun he => h (he ▸ List.mem_cons_self c cs)
      have hcs : ('\n') ∉ cs := fun hm => h (List.mem_cons_of_mem c hm)
      rw [pySplitNewline_cons_eq, if_neg hc, ih hcs]

theorem pySplitNewline_append (p r : List Char) (h : ('\n') ∉ p) :
    pySplitNewline (p ++ ('\n') :: r) = p :: pySplitNewline r := by
  induction p with
  | nil =>
      simp only [List.nil_append]
      rw [pySplitNewline_cons_eq, if_pos rfl]
  | cons c cs ih =>
      have hc : ¬ c = '\n' := fun he => h (he ▸ List.mem_cons_self c cs)
      have hcs : ('\n') ∉ cs := fun hm => h (List.mem_cons_of_mem c hm)
      rw [List.cons_append, pySplitNewline_cons_eq, if_neg hc, ih hcs]

theorem intercalate_two (a b : List Char) (t : List (List Char)) :
    List.intercalate [('\n')] (a :: b :: t) =
      a ++ ('\n') :: List.intercalate [('\n')] (b :: t) := by
  simp [List.intercalate, List.intersperse]

theorem intercalate_one (a : List Char) : List.intercalate [('\n')] [a] = a := by
  simp [List.intercalate, List.intersperse]

theorem pySplitNewline_intercalate (paths : List (List Char)) (hne : paths ≠ [])
    (h : ∀ p ∈ paths, ('\n') ∉ p) :
    pySplitNewline (List.intercalate [('\n')] paths) = paths := by
  induction paths with
  | nil => exact absurd rfl hne
  | cons p rest ih =>
      rcases rest with _ | ⟨q, rest'⟩
      · rw [intercalate_one, pySplitNewline_no_nl p (h p (List.mem_cons_self p []))]
      · rw [intercalate_two, pySplitNewline_append p _ (h p (List.mem_cons_self p _)),
          ih (by simp) (fun x hx => h x (List.mem_cons_of_mem p hx))]

theorem intercalate_getLast (paths : List (List Char)) (hne : paths ≠ [])
    (hp : ∀ p ∈ paths, p ≠ []) :
    ∃ c, (List.intercalate [('\n')] paths).getLast? = some c ∧
      ∃ p, p ∈ paths ∧ p.getLast? = some c := by
  induction paths with
  | nil => exact absurd rfl hne
  | cons p rest ih =>
      rcases rest with _ | ⟨q, rest'⟩
      · have hpne : p ≠ [] := hp p (List.mem_cons_self p [])
        obtain ⟨c, hc⟩ := Option.isSome_iff_exists.mp (by
          rw [List.getLast?_isSome]
          exact hpne)
        exact ⟨c, by rw [intercalate_one]; exact hc, p, List.mem_cons_self p [], hc⟩
      · obtain ⟨c, hic, p', hp', hlast⟩ :=
          ih (by simp) (fun x hx => hp x (List.mem_cons_of_mem p hx))
        refine ⟨c, ?_, p', List.mem_cons_of_mem p hp', hlast⟩
        rw [intercalate_two, List.getLast?_append]
        have hx : (('\n') :: List.intercalate [('\n')] (q :: rest')).getLast? = some c := by
          rw [show (('\n') :: List.intercalate [('\n')] (q :: rest')) =
            [('\n')] ++ List.intercalate [('\n')] (q :: rest') from rfl]
          rw [List.getLast?_append, hic]
          rfl
        rw [hx]
        rfl

/-- C9: for a non-empty list of discovered paths — each non-empty (paths
come from the filesystem walk and are never the empty string), containing
no newline, and without trailing whitespace — writing the file-list cache
(newline-join, line 69) and loading it back (read, rstrip, split on
newline, line 57) returns the identical sequence. -/
theorem C9_file_list_cache_roundtrip (paths : List (List Char)) (hne : paths ≠ [])
    (hp : ∀ p ∈ paths, p ≠ [] ∧ ('\n') ∉ p ∧ noTrailingWS p = true) :
    loadFileListCache (writeFileListCache paths) = paths := by
  unfold loadFileListCache writeFileListCache
  obtain ⟨c, hic, p', hpmem, hlast⟩ :=
    intercalate_getLast paths hne (fun p h => (hp p h).1)
  have hcws : pyWhitespaceChar c = false := by
    have hnt := (hp p' hpmem).2.2
    unfold noTrailingWS at hnt
    rw [hlast] at hnt
    simpa using hnt
  have hicne : List.intercalate [('\n')] paths ≠ [] := by
    intro he
    rw [he] at hic
    simp at hic
  have hrs : pyRstrip (List.intercalate [('\n')] paths) = List.intercalate [('\n')] paths := by
    apply pyRstrip_eq_self _ hicne
    unfold noTrailingWS
    rw [hic]
    simp [hcws]
  rw [hrs]
  exact pySplitNewline_intercalate paths hne (fun p h => (hp p h).2.1)

/-- C9 witness: the round trip on the concrete two-path list. -/
theorem C9_witness :
    loadFileListCache (writeFileListCache [[('a')], [('b')]]) = [[('a')], [('b')]] :=
  C9_file_list_cache_roundtrip [[('a')], [('b')]] (by decide) (by decide)
